import Mathlib

/-!
Verification development for the incremental parallel synchronization engine
of the cafef data pipeline (source: `cafef_comprehensive_scraper.py` and
`utils_r2.py`).

Shallow-embedding conventions:
* Dates inside rows and watermarks are modelled as `Nat` days since an epoch
  (pandas `Timestamp` values are day-resolution in this pipeline and the code
  only compares, maxes, and adds whole days to them).  A missing / unparseable
  date (`NaT`) is `Option.none`.
* Calendar dates used by `strftime("%d%m%y")` / `strptime("%d%m%y")` in
  filenames are a `Date` record with year, month, day fields.
* Fallible Python code (bare `except:` blocks, raising library calls) is
  modelled with `Option` / `Except`, never by stubbing the failure away.
* The object store is a list of (key, payload) pairs; `put` overwrites the key.
-/

/-! ### Rows and the merge/dedup step (`update_range_dataset`, lines 393-408) -/

/-- One dataset row after column normalisation: entity key (`ticker`),
canonical `date` column (`none` models pandas `NaT`), and the remaining
fields of the row collapsed into one comparable value (pandas
`drop_duplicates()` compares whole rows, so only equality of the rest
matters). -/
structure Row where
  ticker : String
  date : Option Nat
  value : Int
deriving DecidableEq, Repr

/-- Helper for `drop_duplicates`: keep a row iff it was not seen before. -/
def dropDupAux (seen : List Row) : List Row → List Row
  | [] => []
  | r :: rest =>
    if r ∈ seen then dropDupAux seen rest
    else r :: dropDupAux (r :: seen) rest

/-- pandas `DataFrame.drop_duplicates()` with no `subset` argument and the
default `keep="first"`: removes a row iff an identical full row (all columns
equal) occurred earlier; the first occurrence survives.  This is what line 401
of `update_range_dataset` executes. -/
def drop_duplicates (l : List Row) : List Row :=
  dropDupAux [] l

/-- The merge of `update_range_dataset` (lines 381-401): concatenate the
master rows and every chunk's rows in order (master first, chunks in directory
order), then `drop_duplicates()` on full rows.  The guard at line 400 only
checks that the `date` and `ticker` columns exist, which is always true in
this model. -/
def update_merge (master : List Row) (chunks : List (List Row)) : List Row :=
  drop_duplicates (master ++ chunks.flatten)

/-- Maximum of a list of (non-NaT) dates, mirroring pandas `Series.max()`
which skips `NaT` (callers pass the `filterMap`-ed list of present dates). -/
def series_max : List Nat → Option Nat
  | [] => none
  | x :: xs =>
    match series_max xs with
    | none => some x
    | some m => some (max x m)

/-- Lines 404-406 of `update_range_dataset`: `max_date = datetime.now()`
unless the merged frame has a `date` column with at least one non-NaT entry,
in which case `max_date = df_final["date"].max()` (pandas max skips NaT). -/
def df_max_date (now : Nat) (rows : List Row) : Nat :=
  match series_max (rows.filterMap Row.date) with
  | some m => m
  | none => now

/-! #### Basic lemmas about the dedup step -/

theorem mem_dropDupAux (seen : List Row) (l : List Row) (r : Row) :
    r ∈ dropDupAux seen l ↔ r ∈ l ∧ r ∉ seen := by
  induction l generalizing seen with
  | nil => simp [dropDupAux]
  | cons a rest ih =>
    by_cases ha : a ∈ seen
    · simp only [dropDupAux, if_pos ha, ih]
      constructor
      · rintro ⟨hr, hs⟩
        exact ⟨List.mem_cons_of_mem _ hr, hs⟩
      · rintro ⟨hr, hs⟩
        rcases List.mem_cons.mp hr with rfl | hr
        · exact absurd ha hs
        · exact ⟨hr, hs⟩
    · simp only [dropDupAux, if_neg ha]
      constructor
      · intro h
        rcases List.mem_cons.mp h with rfl | h
        · exact ⟨List.mem_cons_self _ _, ha⟩
        · rcases (ih (a :: seen)).mp h with ⟨hr, hs⟩
          refine ⟨List.mem_cons_of_mem _ hr, fun hx => hs (List.mem_cons_of_mem _ hx)⟩
      · rintro ⟨hr, hs⟩
        rcases List.mem_cons.mp hr with rfl | hr
        · exact List.mem_cons_self _ _
        · by_cases hra : r = a
          · subst hra; exact List.mem_cons_self _ _
          · exact List.mem_cons_of_mem _ ((ih (a :: seen)).mpr
              ⟨hr, fun hx => (List.mem_cons.mp hx).elim hra hs⟩)

/-- Full-row dedup preserves membership in both directions: no row value is
invented and no row value present in the input disappears entirely. -/
theorem mem_drop_duplicates (l : List Row) (r : Row) :
    r ∈ drop_duplicates l ↔ r ∈ l := by
  simp [drop_duplicates, mem_dropDupAux]

theorem mem_update_merge (master : List Row) (chunks : List (List Row)) (r : Row) :
    r ∈ update_merge master chunks ↔ r ∈ master ++ chunks.flatten := by
  simp [update_merge, mem_drop_duplicates]

/-! #### Characterisation of `series_max` -/

theorem series_max_eq_none_iff (l : List Nat) : series_max l = none ↔ l = [] := by
  cases l with
  | nil => simp [series_max]
  | cons x xs =>
    simp only [series_max]
    cases series_max xs <;> simp

theorem series_max_cons (a : Nat) (xs : List Nat) :
    series_max (a :: xs) =
      match series_max xs with
      | none => some a
      | some m => some (max a m) := rfl

theorem series_max_eq_some_iff (l : List Nat) (m : Nat) :
    series_max l = some m ↔ m ∈ l ∧ ∀ x ∈ l, x ≤ m := by
  induction l generalizing m with
  | nil => simp [series_max]
  | cons a xs ih =>
    rw [series_max_cons]
    cases h : series_max xs with
    | none =>
      have hnil : xs = [] := (series_max_eq_none_iff xs).mp h
      subst hnil
      constructor
      · intro hm
        simp only [Option.some.injEq] at hm
        subst hm
        simp
      · rintro ⟨hm, hb⟩
        simp at hm
        subst hm
        simp
    | some k =>
      rcases (ih k).mp h with ⟨hk, hbk⟩
      constructor
      · intro hm
        simp only [Option.some.injEq] at hm
        rcases Nat.le_total a k with hak | hka
        · rw [max_eq_right hak] at hm
          subst hm
          refine ⟨List.mem_cons_of_mem _ hk, ?_⟩
          intro x hx
          rcases List.mem_cons.mp hx with rfl | hx
          · exact hak
          · exact hbk x hx
        · rw [max_eq_left hka] at hm
          subst hm
          refine ⟨List.mem_cons_self _ _, ?_⟩
          intro x hx
          rcases List.mem_cons.mp hx with rfl | hx
          · exact le_refl _
          · exact le_trans (hbk x hx) hka
      · rintro ⟨hm, hb⟩
        have hkm : k ≤ m := hb k (List.mem_cons_of_mem _ hk)
        have ham : a ≤ m := hb a (List.mem_cons_self _ _)
        rcases List.mem_cons.mp hm with rfl | hmx
        · show some (max m k) = some m
          rw [max_eq_left hkm]
        · have hmk : m ≤ k := hbk m hmx
          have hmkk : m = k := Nat.le_antisymm hmk hkm
          subst hmkk
          show some (max a m) = some m
          rw [max_eq_right ham]

/-- `series_max` only depends on which dates occur, not on their multiplicity
or order (it is a maximum). -/
theorem series_max_congr (l l' : List Nat) (h : ∀ x, x ∈ l ↔ x ∈ l') :
    series_max l = series_max l' := by
  cases hl : series_max l with
  | none =>
    have : l = [] := (series_max_eq_none_iff l).mp hl
    subst this
    have : l' = [] := by
      cases l' with
      | nil => rfl
      | cons b bs => exact absurd ((h b).mpr (List.mem_cons_self _ _)) (by simp)
    simp [this, series_max]
  | some m =>
    rcases (series_max_eq_some_iff l m).mp hl with ⟨hm, hb⟩
    exact ((series_max_eq_some_iff l' m).mpr
      ⟨(h m).mp hm, fun x hx => hb x ((h x).mpr hx)⟩).symm

/-! ### Watermark resolution (`update_range_dataset`, lines 271-301) -/

/-- A value of the pandas watermark dict `last_update_map`
(`df_master.groupby("ticker")["date"].max().to_dict()`): either a real
timestamp (day number) or pandas `NaT` (a ticker whose master rows all have
missing dates). -/
inductive PDate where
  | ts (d : Nat)
  | NaT
deriving DecidableEq, Repr

/-- The watermark map: `groupby("ticker")["date"].max()`.  A ticker is a key
of the dict iff the master has at least one row for it; the value is the max
of its non-NaT dates, or `NaT` when every date of the group is missing
(pandas `max` with `skipna=True` over an all-NaT group yields `NaT`). -/
def last_update_map (rows : List Row) (t : String) : Option PDate :=
  let g := rows.filter (fun r => r.ticker == t)
  if g.isEmpty then none
  else
    match series_max (g.filterMap Row.date) with
    | some m => some (PDate.ts m)
    | none => some PDate.NaT

/-- What `find_latest_master_file` plus the load block (lines 276-299) can
hand to the rest of the run.  `corrupt` stands for any raising load
(unreadable parquet, failed download, a `date` column `pd.to_datetime` cannot
convert, ...: the bare `except:` at line 295 catches all of them).
`table hasDate hasTicker rows` is a successfully read frame; `hasDate` is
"has a `date` (or `ngay`, renamed at line 288) column", `hasTicker` is "has a
`ticker` column" (its absence makes `groupby("ticker")` raise `KeyError`,
again caught by the bare `except:`). -/
inductive RawMaster where
  | corrupt
  | table (hasDate : Bool) (hasTicker : Bool) (rows : List Row)

/-- Lines 271-301 of `update_range_dataset`: produce the master rows used by
the merge and the watermark map used by the fetches.  `none` input models
`find_latest_master_file` returning no candidate (missing artifact). -/
def load_master : Option RawMaster → List Row × (String → Option PDate)
  | none => ([], fun _ => none)
  | some RawMaster.corrupt => ([], fun _ => none)
  | some (RawMaster.table hasDate hasTicker rows) =>
    if hasDate then
      if hasTicker then (rows, last_update_map rows)
      else ([], fun _ => none)
    else ([], fun _ => none)

/-- The cases the spec calls "missing, unreadable, or structurally corrupted
(missing the required date or entity-key columns)". -/
def masterCorrupted : Option RawMaster → Prop
  | none => True
  | some RawMaster.corrupt => True
  | some (RawMaster.table hasDate hasTicker _) => hasDate = false ∨ hasTicker = false

/-! ### Per-ticker fetch (`process_ticker_range_data`, lines 216-256) -/

/-- JSON values as returned by `r.json()`. -/
inductive Json where
  | null
  | num (n : Int)
  | str (s : String)
  | arr (elems : List Json)
  | obj (fields : List (String × Json))

/-- The relevant part of a dataset-type configuration record (`CONFIG`).
`start_date_default` is the parsed `"start_date_default"` entry;
`data_key_chain` is `"data_key_chain"`. -/
structure FetchConfig where
  url : String
  start_date_default : Nat
  data_key_chain : List String

/-- The `params` dict built at lines 226-232 (the request actually issued by
`requests.get`, day numbers standing for the `%d/%m/%Y` strings). -/
structure Request where
  url : String
  symbol : String
  startDate : Nat
  endDate : Nat
  pageIndex : Nat
  pageSize : Nat
deriving DecidableEq, Repr

/-- What `requests.get` can come back with: a raised exception (timeout,
connection error, ...), or an HTTP response whose body either parses as JSON
(`some body`) or makes `r.json()` raise (`none`). -/
inductive Response where
  | failure
  | status (code : Nat) (body : Option Json)

/-- Lines 219-232: `start_date = config["start_date_default"]`, overridden to
`last_date + 1 day` when the ticker has a watermark; `EndDate` is today.
A `NaT` watermark makes `(NaT + timedelta(days=1)).strftime(...)` raise
`ValueError` — and this happens before the `try:` at line 234, so the whole
call raises (`Except.error`). -/
def buildRequest (ticker : String) (config : FetchConfig)
    (last_update : String → Option PDate) (now : Nat) : Except Unit Request :=
  match last_update ticker with
  | some (PDate.ts w) => Except.ok ⟨config.url, ticker, w + 1, now, 1, 10000⟩
  | some PDate.NaT => Except.error ()
  | none => Except.ok ⟨config.url, ticker, config.start_date_default, now, 1, 10000⟩

/-- Python `dict` lookup `cursor[k]` / `k in cursor`. -/
def lookupField (fields : List (String × Json)) (k : String) : Option Json :=
  match fields with
  | [] => none
  | (k', v) :: rest => if k' == k then some v else lookupField rest k

/-- Python `row[k] = v` on a dict: replace in place if the key exists,
append otherwise. -/
def setField (fields : List (String × Json)) (k : String) (v : Json) :
    List (String × Json) :=
  match fields with
  | [] => [(k, v)]
  | (k', v') :: rest => if k' == k then (k, v) :: rest else (k', v') :: setField rest k v

/-- The key-chain loop at lines 241-248: descend into a dict when the key is
present, silently keep the cursor when it is already a list (`pass`), and
bail out (`return []`, here `none`) in every other case — including a dict
missing the key. -/
def traverseChain (cur : Json) : List String → Option Json
  | [] => some cur
  | k :: ks =>
    match cur with
    | Json.obj fields =>
      match lookupField fields k with
      | some v => traverseChain v ks
      | none => none
    | Json.arr xs => traverseChain (Json.arr xs) ks
    | _ => none

/-- Lines 250-253: `for row in cursor: row["symbol"] = ticker`.  Assigning
into a non-dict element raises `TypeError`, which the enclosing bare
`except:` converts into `[]` (modelled by `none` here). -/
def tagRows (ticker : String) : List Json → Option (List Json)
  | [] => some []
  | Json.obj fields :: rest =>
    (tagRows ticker rest).map
      (fun rs => Json.obj (setField fields "symbol" (Json.str ticker)) :: rs)
  | _ :: _ => none

/-- The body of the `try:` at lines 234-256 applied to the outcome of
`requests.get`: non-200 status, unparseable body, a broken key chain, a
non-list terminal cursor, a non-dict row, and a raised exception all end in
`return []`, exactly like a genuinely empty data list. -/
def handleResponse (ticker : String) (config : FetchConfig) (resp : Response) :
    List Json :=
  match resp with
  | Response.failure => []
  | Response.status code body =>
    if code ≠ 200 then []
    else
      match body with
      | none => []
      | some data =>
        match traverseChain data config.data_key_chain with
        | none => []
        | some (Json.arr rows) =>
          match tagRows ticker rows with
          | some tagged => tagged
          | none => []
        | some _ => []

/-- Result of one `process_ticker_range_data` call that did not raise:
the request it issued, the row list it returned, and everything it printed
(the function body contains no `print` call, so `logs` is always `[]`). -/
structure FetchResult where
  request : Request
  rows : List Json
  logs : List String

/-- `process_ticker_range_data(ticker, config, last_update_map)` against a
network oracle `net`: build the params (raising on a `NaT` watermark), issue
the single `requests.get`, and run the `try:` body on the response. -/
def process_ticker_range_data (ticker : String) (config : FetchConfig)
    (last_update : String → Option PDate) (now : Nat)
    (net : Request → Response) : Except Unit FetchResult :=
  match buildRequest ticker config last_update now with
  | Except.error e => Except.error e
  | Except.ok req => Except.ok ⟨req, handleResponse ticker config (net req), []⟩

/-- Rows on which the tagging loop succeeds: every element is a dict. -/
def allObjs : List Json → Bool
  | [] => true
  | Json.obj _ :: rest => allObjs rest
  | _ :: _ => false

/-- The response shapes the code treats as a failed fetch: raised request,
non-200 status, malformed JSON body, a key chain that cannot be traversed, a
terminal cursor that is not a list, or a list with a non-dict row. -/
def respBad (config : FetchConfig) : Response → Bool
  | Response.failure => true
  | Response.status code body =>
    if code ≠ 200 then true
    else
      match body with
      | none => true
      | some data =>
        match traverseChain data config.data_key_chain with
        | none => true
        | some (Json.arr rows) => !(allObjs rows)
        | some _ => true

/-- A genuinely empty result: HTTP 200, well-formed body, and the key chain
resolves to an empty list. -/
def respEmptyList (config : FetchConfig) : Response → Bool
  | Response.status code (some data) =>
    code == 200 &&
      (match traverseChain data config.data_key_chain with
       | some (Json.arr []) => true
       | _ => false)
  | _ => false

theorem tagRows_eq_none_of_not_allObjs (ticker : String) (rows : List Json)
    (h : allObjs rows = false) : tagRows ticker rows = none := by
  induction rows with
  | nil => simp [allObjs] at h
  | cons r rest ih =>
    cases r with
    | obj fields =>
      have : allObjs rest = false := h
      simp [tagRows, ih this]
    | null => rfl
    | num n => rfl
    | str s => rfl
    | arr xs => rfl

/-- A bad or empty response makes the `try:` body return `[]`. -/
theorem handleResponse_eq_nil (ticker : String) (config : FetchConfig)
    (resp : Response)
    (h : respBad config resp = true ∨ respEmptyList config resp = true) :
    handleResponse ticker config resp = [] := by
  cases resp with
  | failure => rfl
  | status code body =>
    rcases h with h | h
    · simp only [handleResponse, respBad] at h ⊢
      by_cases hc : code ≠ 200
      · simp [hc]
      · simp only [hc, if_false] at h ⊢
        cases body with
        | none => rfl
        | some data =>
          cases htr : traverseChain data config.data_key_chain with
          | none => simp [htr]
          | some cur =>
            simp only [htr] at h ⊢
            cases cur with
            | arr rows =>
              simp only [Bool.not_eq_true'] at h
              show (match tagRows ticker rows with
                    | some tagged => tagged
                    | none => []) = []
              rw [tagRows_eq_none_of_not_allObjs ticker rows h]
            | null => rfl
            | num n => rfl
            | str s => rfl
            | obj f => rfl
    · simp only [respEmptyList] at h
      cases body with
      | none => simp at h
      | some data =>
        simp only [Bool.and_eq_true, beq_iff_eq] at h
        rcases h with ⟨hc, htr⟩
        subst hc
        cases htr2 : traverseChain data config.data_key_chain with
        | none => rw [htr2] at htr; simp at htr
        | some cur =>
          rw [htr2] at htr
          cases cur with
          | arr rows =>
            cases rows with
            | nil => simp [handleResponse, htr2, tagRows]
            | cons r rs => simp at htr
          | null => simp at htr
          | num n => simp at htr
          | str s => simp at htr
          | obj f => simp at htr

/-! ### Resume scan and batching (`update_range_dataset`, lines 303-344) -/

/-- Lines 304-318: the union of the `ticker` columns of the chunk files found
in the chunk directory (a chunk file is modelled by its `ticker` column). -/
def processed_tickers (chunkTickers : List (List String)) : List String :=
  chunkTickers.flatten

/-- Line 321: `[t for t in tickers if t not in processed_tickers]`. -/
def tickers_to_process (tickers : List String)
    (chunkTickers : List (List String)) : List String :=
  tickers.filter (fun t => !((processed_tickers chunkTickers).contains t))

/-- Lines 327-336: the slices `tickers_to_process[i*batch_size :
i*batch_size + batch_size]` for `i in range(len(...) // batch_size + 1)`. -/
def batches (l : List String) (batch_size : Nat) : List (List String) :=
  (List.range (l.length / batch_size + 1)).map
    (fun i => (l.drop (i * batch_size)).take batch_size)

/-- The tickers for which a fetch is submitted to the worker pool in one run:
every ticker of every processed batch (`batch_size = 500` at line 327). -/
def fetched_tickers (tickers : List String)
    (chunkTickers : List (List String)) : List String :=
  (batches (tickers_to_process tickers chunkTickers) 500).flatten

theorem flatten_range_take (l : List String) (bs : Nat) (m : Nat) :
    ((List.range m).map (fun i => (l.drop (i * bs)).take bs)).flatten
      = l.take (m * bs) := by
  induction m with
  | zero => simp
  | succ m ih =>
    rw [List.range_succ, List.map_append, List.flatten_append, ih]
    simp only [List.map_cons, List.map_nil, List.flatten_cons, List.flatten_nil,
      List.append_nil]
    rw [Nat.succ_mul, List.take_add]

/-- Slicing into fixed-size batches loses and invents nothing: the
concatenation of all the batches is the original queue. -/
theorem flatten_batches (l : List String) (bs : Nat) (hbs : 0 < bs) :
    (batches l bs).flatten = l := by
  unfold batches
  rw [flatten_range_take]
  apply List.take_of_length_le
  apply le_of_lt
  calc l.length = bs * (l.length / bs) + l.length % bs :=
        (Nat.div_add_mod _ _).symm
    _ < bs * (l.length / bs) + bs := Nat.add_lt_add_left (Nat.mod_lt _ hbs) _
    _ = (l.length / bs + 1) * bs := by ring

/-! ### Artifact naming (`update_range_dataset` line 408,
`find_latest_master_file` lines 171-180, `utils_r2.extract_date_from_name`) -/

/-- A calendar date as handled by `datetime.strftime` / `datetime.strptime`. -/
structure Date where
  year : Nat
  month : Nat
  day : Nat
deriving DecidableEq, Repr

/-- Chronological order on calendar dates. -/
def dateLt (a b : Date) : Bool :=
  a.year < b.year ||
    (a.year == b.year &&
      (a.month < b.month || (a.month == b.month && a.day < b.day)))

/-- The decimal digit character for `n ≤ 9`. -/
def digitChar (n : Nat) : Char := Char.ofNat (48 + n)

/-- Two-digit zero-padded decimal rendering, as `strftime` produces for
`%d`, `%m` and `%y` (all values here are below 100). -/
def pad2 (n : Nat) : String := String.mk [digitChar (n / 10), digitChar (n % 10)]

/-- `max_date.strftime("%d%m%y")` (line 408). -/
def strftime_ddmmyy (d : Date) : String :=
  pad2 d.day ++ pad2 d.month ++ pad2 (d.year % 100)

/-- Line 408: `new_filename = f"{prefix}_{max_date.strftime('%d%m%y')}.parquet"`. -/
def new_filename (prefixStr : String) (maxDate : Date) : String :=
  prefixStr ++ "_" ++ strftime_ddmmyy maxDate ++ ".parquet"

/-- `strptime`'s century pivot for `%y`: 00-68 map to 20xx, 69-99 to 19xx. -/
def strptime_y (yy : Nat) : Nat := if yy ≤ 68 then 2000 + yy else 1900 + yy

def isLeap (y : Nat) : Bool :=
  (y % 4 == 0 && y % 100 != 0) || y % 400 == 0

def days_in_month (y m : Nat) : Nat :=
  if m == 2 then (if isLeap y then 29 else 28)
  else if m == 4 || m == 6 || m == 9 || m == 11 then 30
  else 31

/-- `datetime.strptime(s, "%d%m%y")` on a six-digit payload: month must be
1-12 and the day must exist in that month of the pivoted year, otherwise
`ValueError` (modelled as `none`). -/
def strptime_ddmmyy (d m yy : Nat) : Option Date :=
  let y := strptime_y yy
  if 1 ≤ m && m ≤ 12 && 1 ≤ d && d ≤ days_in_month y m then some ⟨y, m, d⟩
  else none

/-- Numeric value of a digit character pair (`int(m.group(1))` piecewise). -/
def parse2 (c1 c2 : Char) : Nat := (c1.toNat - 48) * 10 + (c2.toNat - 48)

/-- Matcher for the scraper's master-file regex
`_(\d{6})\.parquet$` (`parse_filename_date`, line 173), applied to the
reversed character list of the filename. -/
def parseDatedRev : List Char → Option Date
  | 't' :: 'e' :: 'u' :: 'q' :: 'r' :: 'a' :: 'p' :: '.' ::
      y2 :: y1 :: m2 :: m1 :: d2 :: d1 :: '_' :: _ =>
    if d1.isDigit && d2.isDigit && m1.isDigit && m2.isDigit &&
        y1.isDigit && y2.isDigit then
      strptime_ddmmyy (parse2 d1 d2) (parse2 m1 m2) (parse2 y1 y2)
    else none
  | _ => none

/-- `find_latest_master_file.parse_filename_date`: extract and parse the
`_DDMMYY.parquet` suffix; any failure yields `none` (the code maps it to
`datetime.min`). -/
def parse_filename_date (f : String) : Option Date :=
  parseDatedRev f.data.reverse

/-- Matcher for the utils regex `(\d{6})\.parquet$`
(`extract_date_from_name`, `utils_r2.py` lines 15-22): same as above but
without the leading underscore requirement. -/
def parseAnyDatedRev : List Char → Option Date
  | 't' :: 'e' :: 'u' :: 'q' :: 'r' :: 'a' :: 'p' :: '.' ::
      y2 :: y1 :: m2 :: m1 :: d2 :: d1 :: _ =>
    if d1.isDigit && d2.isDigit && m1.isDigit && m2.isDigit &&
        y1.isDigit && y2.isDigit then
      strptime_ddmmyy (parse2 d1 d2) (parse2 m1 m2) (parse2 y1 y2)
    else none
  | _ => none

/-- `utils_r2.extract_date_from_name`. -/
def extract_date_from_name (f : String) : Option Date :=
  parseAnyDatedRev f.data.reverse

/-! ### Object store, retention, and the publish tail
(`update_range_dataset` lines 421-441, `utils_r2.py` lines 24-64) -/

/-- `s3.upload_file` semantics on the modelled store: overwrite the key. -/
def putObject (store : List (String × List Row)) (key : String)
    (v : List Row) : List (String × List Row) :=
  (key, v) :: store.filter (fun kv => kv.1 != key)

/-- Character-list version of `str.startswith`. -/
def dataStarts : List Char → List Char → Bool
  | _, [] => true
  | [], _ :: _ => false
  | a :: as, b :: bs => a == b && dataStarts as bs

/-- `key.startswith(prefix)`, the filtering S3 `list_objects_v2` applies. -/
def str_starts_with (s p : String) : Bool := dataStarts s.data p.data

/-- `list_r2_files(bucket, prefix)`: the keys under a prefix. -/
def list_r2_files (store : List (String × List Row)) (prefixStr : String) :
    List String :=
  (store.map Prod.fst).filter (fun k => str_starts_with k prefixStr)

/-- The number of retained master versions for a dataset type: keys under its
folder carrying a parseable `DDMMYY.parquet` date suffix. -/
def countRetained (store : List (String × List Row)) (prefixStr : String) : Nat :=
  ((list_r2_files store prefixStr).filter
    (fun f => (extract_date_from_name f).isSome)).length

/-- Sort key used by `clean_old_backups_r2` (`key=lambda x:
extract_date_from_name(x)`), as a number that orders like the calendar date
(months are below 13 and days below 32 for every parseable name). -/
def dateKeyNum (f : String) : Nat :=
  match extract_date_from_name f with
  | some d => d.year * 10000 + d.month * 100 + d.day
  | none => 0

/-- `utils_r2.clean_old_backups_r2(bucket, prefix, keep)`: list the keys under
the prefix, keep those with a parseable date suffix, sort them newest-first,
and delete everything after the first `keep` entries.  (Python uses a stable
sort; only the fact that the sorted list is a permutation of the dated list
matters below, so insertion sort stands in for it.) -/
def clean_old_backups_r2 (store : List (String × List Row))
    (prefixStr : String) (keep : Nat) : List (String × List Row) :=
  let files := list_r2_files store prefixStr
  let dated := files.filter (fun f => (extract_date_from_name f).isSome)
  let sorted := List.insertionSort (fun a b => dateKeyNum b ≤ dateKeyNum a) dated
  let toDelete := sorted.drop keep
  store.filter (fun kv => !(toDelete.contains kv.1))

/-- End state of one `update_range_dataset` run in remote mode, restricted to
the pieces of state the publish tail touches: the object store, the chunk
directory, and whether the call raised. -/
structure PublishOutcome where
  store : List (String × List Row)
  chunks : List (List Row)
  raised : Bool

/-- Lines 421-441 (remote branch): write `df_final`, `upload_to_r2` it under
`folder + new_filename` (`uploadOk = false` models the upload raising), no
retention pruning (the `clean_old_backups_r2` call at line 433 is commented
out), and then the `finally:` at line 435 removes the whole chunk directory
regardless of how the block was left. -/
def publish_r2 (store : List (String × List Row)) (chunks : List (List Row))
    (folder prefixStr : String) (df_final : List Row) (maxDate : Date)
    (uploadOk : Bool) : PublishOutcome :=
  let key := folder ++ new_filename prefixStr maxDate
  if uploadOk then
    { store := putObject store key df_final, chunks := [], raised := false }
  else
    { store := store, chunks := [], raised := true }

/-- A Nodup list is no longer than any list containing it. -/
theorem nodup_length_le_of_subset (l l' : List String) (hnd : l.Nodup)
    (hsub : l ⊆ l') : l.length ≤ l'.length := by
  have h1 : l.toFinset.card = l.length := List.toFinset_card_of_nodup hnd
  have h2 : l.toFinset ⊆ l'.toFinset := by
    intro x hx
    rw [List.mem_toFinset] at hx ⊢
    exact hsub hx
  calc l.length = l.toFinset.card := h1.symm
    _ ≤ l'.toFinset.card := Finset.card_le_card h2
    _ ≤ l'.length := List.toFinset_card_le l'

/-- The pruning routine really does bound the number of retained dated
versions by `keep` (on a store whose keys are distinct, as object-store
listings are). -/
theorem clean_old_backups_r2_bound (store : List (String × List Row))
    (prefixStr : String) (keep : Nat)
    (hnd : (store.map Prod.fst).Nodup) :
    countRetained (clean_old_backups_r2 store prefixStr keep) prefixStr ≤ keep := by
  classical
  set dated := (list_r2_files store prefixStr).filter
    (fun f => (extract_date_from_name f).isSome) with hdated
  set sorted := List.insertionSort (fun a b => dateKeyNum b ≤ dateKeyNum a) dated
    with hsorted
  set toDelete := sorted.drop keep with htd
  have hstore' : clean_old_backups_r2 store prefixStr keep
      = store.filter (fun kv => !(toDelete.contains kv.1)) := rfl
  set store' := store.filter (fun kv => !(toDelete.contains kv.1)) with hs'
  set L := (list_r2_files store' prefixStr).filter
    (fun f => (extract_date_from_name f).isSome) with hL
  have hbound : countRetained (clean_old_backups_r2 store prefixStr keep) prefixStr
      = L.length := by rw [hstore']; rfl
  rw [hbound]
  have hsubl : L.Sublist dated := by
    have h0 : store'.Sublist store := List.filter_sublist store
    have h1 : (store'.map Prod.fst).Sublist (store.map Prod.fst) :=
      List.Sublist.map Prod.fst h0
    have h2 : (list_r2_files store' prefixStr).Sublist
        (list_r2_files store prefixStr) := List.Sublist.filter _ h1
    exact List.Sublist.filter _ h2
  have hLnd : L.Nodup := by
    apply List.Nodup.sublist hsubl
    apply List.Nodup.filter
    apply List.Nodup.filter
    exact hnd
  have hmem_take : L ⊆ sorted.take keep := by
    intro f hf
    have hfd : f ∈ dated := hsubl.subset hf
    have hfs : f ∈ sorted := by
      rw [hsorted]
      exact ((List.perm_insertionSort _ dated).mem_iff).mpr hfd
    have hfnotdel : f ∉ toDelete := by
      rw [hL] at hf
      have hf1 : f ∈ list_r2_files store' prefixStr := (List.mem_filter.mp hf).1
      have hf2 : f ∈ store'.map Prod.fst := (List.mem_filter.mp hf1).1
      rcases List.mem_map.mp hf2 with ⟨kv, hkv, hkvf⟩
      rw [hs'] at hkv
      have hq := (List.mem_filter.mp hkv).2
      rw [hkvf] at hq
      simp only [Bool.not_eq_true'] at hq
      intro hcontra
      simp [List.contains_eq_any_beq] at hq
      exact hq hcontra
    have : sorted = sorted.take keep ++ sorted.drop keep :=
      (List.take_append_drop keep sorted).symm
    rw [this] at hfs
    rcases List.mem_append.mp hfs with h | h
    · exact h
    · exact absurd h (htd ▸ hfnotdel)
  calc L.length ≤ (sorted.take keep).length :=
        nodup_length_le_of_subset L _ hLnd hmem_take
    _ ≤ keep := List.length_take_le _ _

/-! ### Date cleaning (`parse_asp_date` lines 183-197,
`clean_dataframe_dates` lines 199-214) -/

/-- One raw cell of a date-like column before cleaning.  `aspStr millis`
stands for a string in which the regex search finds `/Date(millis)/`;
`plain s` for any other string. -/
inductive Cell where
  | null
  | dateVal (d : Nat)
  | aspStr (millis : Nat)
  | plain (s : String)
deriving DecidableEq, Repr

/-- `parse_asp_date`: strings matching the encoded-timestamp regex become
datetimes (`fromtimestamp(ms / 1000)`, rendered as a day number); every other
value is returned unchanged. -/
def parse_asp_date : Cell → Cell
  | Cell.aspStr millis => Cell.dateVal (millis / 1000 / 86400)
  | c => c

/-- `pd.to_datetime(column, errors="coerce")` on one cell: datetimes pass
through, nulls and unparseable strings coerce to `NaT` (`none`), and parseable
strings go through the library parser, abstracted as `parseStr` (the two call
sites differ only in the `dayfirst` flag, which lives inside `parseStr`). -/
def to_datetime_coerce (parseStr : String → Option Nat) : Cell → Option Nat
  | Cell.null => none
  | Cell.dateVal d => some d
  | Cell.aspStr _ => none
  | Cell.plain s => parseStr s

/-- `df[col].dropna().iloc[0]`: the first non-null cell of the column. -/
def firstValid : List Cell → Option Cell
  | [] => none
  | Cell.null :: rest => firstValid rest
  | c :: _ => some c

/-- `clean_dataframe_dates` on one date-named column: if the first non-null
value is an encoded-timestamp string, apply `parse_asp_date` to every cell
and then coerce; otherwise coerce directly (with `dayfirst=True`).  Rows are
never removed — an unparseable cell becomes `NaT`, not a dropped row. -/
def clean_date_column (parseStr : String → Option Nat) (cells : List Cell) :
    List (Option Nat) :=
  match firstValid cells with
  | some (Cell.aspStr _) =>
    cells.map (fun c => to_datetime_coerce parseStr (parse_asp_date c))
  | _ => cells.map (to_datetime_coerce parseStr)

theorem clean_date_column_length (parseStr : String → Option Nat)
    (cells : List Cell) :
    (clean_date_column parseStr cells).length = cells.length := by
  unfold clean_date_column
  cases firstValid cells with
  | none => simp
  | some c => cases c <;> simp

/-! ### Watermark congruence lemmas -/

/-- `last_update_map` at a ticker depends only on which rows of that ticker
are present. -/
theorem last_update_map_congr (rows1 rows2 : List Row) (t : String)
    (h : ∀ r : Row, (r ∈ rows1 ∧ r.ticker = t) ↔ (r ∈ rows2 ∧ r.ticker = t)) :
    last_update_map rows1 t = last_update_map rows2 t := by
  have hg : ∀ r : Row, r ∈ rows1.filter (fun r => r.ticker == t)
      ↔ r ∈ rows2.filter (fun r => r.ticker == t) := by
    intro r
    simp only [List.mem_filter, beq_iff_eq]
    exact h r
  have hgnil : (rows1.filter (fun r => r.ticker == t)) = []
      ↔ (rows2.filter (fun r => r.ticker == t)) = [] := by
    constructor
    · intro hnil
      apply List.eq_nil_iff_forall_not_mem.mpr
      intro r hr
      exact List.eq_nil_iff_forall_not_mem.mp hnil r ((hg r).mpr hr)
    · intro hnil
      apply List.eq_nil_iff_forall_not_mem.mpr
      intro r hr
      exact List.eq_nil_iff_forall_not_mem.mp hnil r ((hg r).mp hr)
  have hdates : ∀ x : Nat,
      x ∈ (rows1.filter (fun r => r.ticker == t)).filterMap Row.date
        ↔ x ∈ (rows2.filter (fun r => r.ticker == t)).filterMap Row.date := by
    intro x
    simp only [List.mem_filterMap]
    constructor
    · rintro ⟨r, hr, hrd⟩
      exact ⟨r, (hg r).mp hr, hrd⟩
    · rintro ⟨r, hr, hrd⟩
      exact ⟨r, (hg r).mpr hr, hrd⟩
  unfold last_update_map
  have hmax : series_max ((rows1.filter (fun r => r.ticker == t)).filterMap Row.date)
      = series_max ((rows2.filter (fun r => r.ticker == t)).filterMap Row.date) :=
    series_max_congr _ _ hdates
  by_cases hemp : (rows1.filter (fun r => r.ticker == t)).isEmpty
  · have h2 : (rows2.filter (fun r => r.ticker == t)).isEmpty := by
      rw [List.isEmpty_iff] at hemp ⊢
      exact hgnil.mp hemp
    simp [hemp, h2]
  · have h2 : ¬ (rows2.filter (fun r => r.ticker == t)).isEmpty := by
      rw [List.isEmpty_iff] at hemp ⊢
      intro hx
      exact hemp (hgnil.mpr hx)
    simp only [hemp, h2, if_false, Bool.false_eq_true, hmax]

/-- After a merge whose chunks contain no rows for ticker `b`, the watermark
recomputed from the merged dataset at `b` is the old master watermark. -/
theorem last_update_map_merge_no_chunk_rows (master : List Row)
    (chunks : List (List Row)) (b : String)
    (hb : ∀ r ∈ chunks.flatten, r.ticker ≠ b) :
    last_update_map (update_merge master chunks) b = last_update_map master b := by
  apply last_update_map_congr
  intro r
  constructor
  · rintro ⟨hr, hrt⟩
    rcases List.mem_append.mp ((mem_update_merge master chunks r).mp hr) with h | h
    · exact ⟨h, hrt⟩
    · exact absurd hrt (hb r h)
  · rintro ⟨hr, hrt⟩
    exact ⟨(mem_update_merge master chunks r).mpr
      (List.mem_append.mpr (Or.inl hr)), hrt⟩

/-! ### Helper lemmas about the fetch call -/

theorem buildRequest_eq_of_ts (ticker : String) (config : FetchConfig)
    (map : String → Option PDate) (now w : Nat)
    (h : map ticker = some (PDate.ts w)) :
    buildRequest ticker config map now
      = Except.ok ⟨config.url, ticker, w + 1, now, 1, 10000⟩ := by
  unfold buildRequest
  rw [h]

theorem buildRequest_eq_of_none (ticker : String) (config : FetchConfig)
    (map : String → Option PDate) (now : Nat) (h : map ticker = none) :
    buildRequest ticker config map now
      = Except.ok ⟨config.url, ticker, config.start_date_default, now, 1, 10000⟩ := by
  unfold buildRequest
  rw [h]

theorem buildRequest_eq_of_NaT (ticker : String) (config : FetchConfig)
    (map : String → Option PDate) (now : Nat) (h : map ticker = some PDate.NaT) :
    buildRequest ticker config map now = Except.error () := by
  unfold buildRequest
  rw [h]

theorem process_eq_of_buildRequest (ticker : String) (config : FetchConfig)
    (map : String → Option PDate) (now : Nat) (net : Request → Response)
    (req : Request) (h : buildRequest ticker config map now = Except.ok req) :
    process_ticker_range_data ticker config map now net
      = Except.ok ⟨req, handleResponse ticker config (net req), []⟩ := by
  unfold process_ticker_range_data
  rw [h]

theorem buildRequest_symbol (ticker : String) (config : FetchConfig)
    (map : String → Option PDate) (now : Nat) (req : Request)
    (h : buildRequest ticker config map now = Except.ok req) :
    req.symbol = ticker := by
  cases hmt : map ticker with
  | none =>
    rw [buildRequest_eq_of_none ticker config map now hmt] at h
    injection h with h
    rw [← h]
  | some pd =>
    cases pd with
    | ts w =>
      rw [buildRequest_eq_of_ts ticker config map now w hmt] at h
      injection h with h
      rw [← h]
    | NaT =>
      rw [buildRequest_eq_of_NaT ticker config map now hmt] at h
      cases h

/-- The request that `process_ticker_range_data` sends when it does not raise
(the `params` dict of lines 226-232). -/
def issuedRequest (ticker : String) (config : FetchConfig)
    (map : String → Option PDate) (now : Nat) : Request :=
  match map ticker with
  | some (PDate.ts w) => ⟨config.url, ticker, w + 1, now, 1, 10000⟩
  | _ => ⟨config.url, ticker, config.start_date_default, now, 1, 10000⟩

/-! ### Concrete fixtures used by witnesses and counterexamples -/

/-- A small dataset-type configuration in the shape of `CONFIG["insider"]`. -/
def sampleConfig : FetchConfig :=
  { url := "u", start_date_default := 0, data_key_chain := ["Data", "Data"] }

def sampleRowJson : Json := Json.obj [("GiaTriRong", Json.num 5)]

/-- A well-formed body whose key chain resolves to a one-row list. -/
def sampleBody : Json :=
  Json.obj [("Data", Json.obj [("Data", Json.arr [sampleRowJson])])]

/-- A network that answers every request with the one-row body. -/
def sampleNet : Request → Response :=
  fun _ => Response.status 200 (some sampleBody)

/-- A watermark map with one entry: ticker `AAA` was last seen on day 100. -/
def sampleMap : String → Option PDate :=
  fun t => if t == "AAA" then some (PDate.ts 100) else none

/-- A watermark map whose entry for `AAA` is pandas `NaT` (all master dates
of `AAA` unparseable). -/
def natMap : String → Option PDate :=
  fun t => if t == "AAA" then some PDate.NaT else none

def storeTwoVersions : List (String × List Row) :=
  [("d/m_010124.parquet", []), ("d/m_020124.parquet", [])]

/-! ## Claim theorems -/

/-- C1: the claim says that when one (entity key, date) pair occurs in both
the master and a chunk with different remaining field values, the merged
dataset keeps exactly one row for the pair — the chunk's.  Evaluating the
merge at such a pair shows the code keeps BOTH rows: line 401 runs
`drop_duplicates()` over entire rows (despite the guard checking for the
`ticker` and `date` columns), so rows differing in any other field are never
collapsed, and among identical rows the first (master) copy is the survivor. -/
theorem C1_merge_keeps_both_rows_of_conflicting_pair :
    update_merge [⟨"AAA", some 10, 1⟩] [[⟨"AAA", some 10, 2⟩]]
      = [⟨"AAA", some 10, 1⟩, ⟨"AAA", some 10, 2⟩] ∧
    ((update_merge [⟨"AAA", some 10, 1⟩] [[⟨"AAA", some 10, 2⟩]]).filter
        (fun r => r.ticker == "AAA" && r.date == some 10)).length = 2 :=
  ⟨rfl, rfl⟩

/-- C2 (counterexample): the claim says a failed upload leaves every chunk
file in place.  In this concrete run the upload raises, and the run still
ends with an empty chunk directory — the `finally:` block at line 435 removes
the chunk directory unconditionally. -/
theorem C2_upload_failure_still_clears_chunks :
    publish_r2 [("d/m_010124.parquet", [])] [[⟨"AAA", some 9, 1⟩]]
        "d/" "m" [⟨"AAA", some 9, 1⟩] ⟨2024, 1, 2⟩ false
      = { store := [("d/m_010124.parquet", [])], chunks := [], raised := true } ∧
    ([[(⟨"AAA", some 9, 1⟩ : Row)]] : List (List Row)) ≠ [] :=
  ⟨rfl, by decide⟩

/-- C2 (amended): the chunk store is cleared unconditionally at the end of
every run — by the `finally:` block — whether the upload succeeded or raised.
On a failed upload the prior master is untouched and the exception
propagates, but the chunks are gone, so the next run re-fetches everything
(its resume scan sees an empty chunk directory and leaves every ticker
queued). -/
theorem C2_amended_finally_always_clears_chunks :
    ∀ (store : List (String × List Row)) (chunks : List (List Row))
      (folder prefixStr : String) (df : List Row) (d : Date) (uploadOk : Bool)
      (tickers : List String),
    (publish_r2 store chunks folder prefixStr df d uploadOk).chunks = [] ∧
    (publish_r2 store chunks folder prefixStr df d false).store = store ∧
    (publish_r2 store chunks folder prefixStr df d false).raised = true ∧
    tickers_to_process tickers
        (((publish_r2 store chunks folder prefixStr df d uploadOk).chunks).map
          (List.map Row.ticker))
      = tickers := by
  intro store chunks folder prefixStr df d uploadOk tickers
  refine ⟨?_, rfl, rfl, ?_⟩
  · cases uploadOk <;> rfl
  · have hch : (publish_r2 store chunks folder prefixStr df d uploadOk).chunks
        = [] := by cases uploadOk <;> rfl
    rw [hch]
    simp [tickers_to_process, processed_tickers]

/-- C3 (counterexample): the claim says that after a successful publish at
most the configured keep-count (2, in the disabled `clean_old_backups_r2`
call) of dated master versions remain.  Publishing a third version over a
store that already holds two leaves three dated versions: the pruning call at
line 433 is commented out, so nothing is ever deleted. -/
theorem C3_retention_exceeded_after_publish :
    countRetained
        ((publish_r2 storeTwoVersions [] "d/" "m" [] ⟨2024, 1, 3⟩ true).store)
        "d/" = 3 ∧ 2 < 3 :=
  ⟨rfl, by decide⟩

/-- C3 (amended): the publish step deletes nothing — every object whose key
differs from the new artifact's key survives a successful publish, so
retained versions accumulate without bound.  The pruning routine
`clean_old_backups_r2` itself does enforce the bound (at most `keep` dated
versions under the prefix survive it, for distinct keys), but the pipeline
never calls it (line 433 is commented out). -/
theorem C3_amended_no_pruning_but_routine_bounds :
    ∀ (store : List (String × List Row)) (prefixStr : String) (keep : Nat)
      (chunks : List (List Row)) (folder p2 : String) (df : List Row) (d : Date),
    ((store.map Prod.fst).Nodup →
      countRetained (clean_old_backups_r2 store prefixStr keep) prefixStr ≤ keep) ∧
    (∀ kv ∈ store, kv.1 ≠ folder ++ new_filename p2 d →
      kv ∈ (publish_r2 store chunks folder p2 df d true).store) := by
  intro store prefixStr keep chunks folder p2 df d
  refine ⟨fun hnd => clean_old_backups_r2_bound store prefixStr keep hnd, ?_⟩
  intro kv hkv hne
  show kv ∈ putObject store (folder ++ new_filename p2 d) df
  unfold putObject
  apply List.mem_cons_of_mem
  apply List.mem_filter.mpr
  exact ⟨hkv, by simpa [bne_iff_ne] using hne⟩

/-- C3 amended witness: the bound and the survival fact at a concrete store. -/
theorem C3_amended_no_pruning_but_routine_bounds_witness :
    countRetained (clean_old_backups_r2 storeTwoVersions "d/" 2) "d/" ≤ 2 ∧
    ("d/m_010124.parquet", ([] : List Row))
      ∈ (publish_r2 storeTwoVersions [] "d/" "m" [] ⟨2024, 1, 3⟩ true).store := by
  have h := C3_amended_no_pruning_but_routine_bounds storeTwoVersions "d/" 2
    [] "d/" "m" [] ⟨2024, 1, 3⟩
  exact ⟨h.1 (by decide), h.2 _ (by decide) (by decide)⟩

/-- C4 (counterexample): the claim says the published dataset contains no row
with an unparseable or missing date.  Merging a chunk row whose date failed to
parse (NaT) keeps that row in the final dataset: `errors="coerce"` turns the
date into NaT but no `dropna` is ever applied to the merged frame. -/
theorem C4_unparseable_date_row_retained :
    update_merge [⟨"AAA", some 10, 1⟩] [[⟨"AAA", none, 7⟩]]
      = [⟨"AAA", some 10, 1⟩, ⟨"AAA", none, 7⟩] ∧
    (⟨"AAA", none, 7⟩ : Row) ∈ update_merge [⟨"AAA", some 10, 1⟩] [[⟨"AAA", none, 7⟩]] ∧
    (⟨"AAA", none, 7⟩ : Row).date = none :=
  ⟨rfl, by decide, rfl⟩

/-- C4 (amended): a row whose date cannot be parsed is coerced to a missing
date (NaT) and RETAINED: cleaning never changes the number of rows of a
column, merging preserves row membership in both directions, and the only
place NaT rows are ignored is the maximum-date computation used for the
artifact name.  The merge is never aborted by an unparseable date. -/
theorem C4_amended_coerce_keep_and_max_ignores :
    ∀ (master : List Row) (chunks : List (List Row)) (r : Row)
      (parseStr : String → Option Nat) (cells : List Cell)
      (now : Nat) (bad : Row) (rest : List Row),
    (r ∈ update_merge master chunks ↔ r ∈ master ++ chunks.flatten) ∧
    (clean_date_column parseStr cells).length = cells.length ∧
    (bad.date = none → df_max_date now (bad :: rest) = df_max_date now rest) := by
  intro master chunks r parseStr cells now bad rest
  refine ⟨mem_update_merge master chunks r, clean_date_column_length parseStr cells, ?_⟩
  intro hb
  unfold df_max_date
  rw [List.filterMap_cons]
  rw [hb]

/-- C4 amended witness: at a concrete NaT row the maximum-date computation is
unchanged. -/
theorem C4_amended_coerce_keep_and_max_ignores_witness :
    df_max_date 99 [⟨"AAA", none, 7⟩, ⟨"AAA", some 10, 1⟩]
      = df_max_date 99 [⟨"AAA", some 10, 1⟩] :=
  (C4_amended_coerce_keep_and_max_ignores [] [] ⟨"AAA", some 10, 1⟩
    (fun _ => none) [] 99 ⟨"AAA", none, 7⟩ [⟨"AAA", some 10, 1⟩]).2.2 rfl

/-- C5 (counterexample): the claim says an entity whose watermark `w`
satisfies `w >= now` is skipped — no fetch request is issued.  Here `AAA` has
watermark 100 and `now = 100` (same-day rerun), yet the code still issues a
request (`StartDate = 101 > EndDate = 100`) and happily returns the row the
network answers with: there is no skip branch in
`process_ticker_range_data`. -/
theorem C5_same_day_watermark_still_fetches :
    process_ticker_range_data "AAA" sampleConfig sampleMap 100 sampleNet
      = Except.ok ⟨⟨"u", "AAA", 101, 100, 1, 10000⟩,
          [Json.obj [("GiaTriRong", Json.num 5), ("symbol", Json.str "AAA")]], []⟩ ∧
    process_ticker_range_data "AAA" sampleConfig sampleMap 100 sampleNet
      ≠ process_ticker_range_data "AAA" sampleConfig sampleMap 100
          (fun _ => Response.failure) := by
  refine ⟨rfl, ?_⟩
  intro h
  have h2 : (1 : Nat) = 0 := congrArg
    (fun x : Except Unit FetchResult =>
      match x with
      | Except.ok r => r.rows.length
      | Except.error _ => 0) h
  exact absurd h2 (by decide)

/-- C5 (amended): for an entity with watermark `w` the fetch requests exactly
`StartDate = w + 1, EndDate = now` — the range `(w, now]` — and this happens
for EVERY `w`, with no relation to `now`: a `w >= now` entity is not skipped,
it just gets a request whose start lies after its end.  An entity with no
watermark is requested from the configured default start date. -/
theorem C5_amended_request_is_w_plus_one_to_now :
    ∀ (ticker : String) (config : FetchConfig) (map : String → Option PDate)
      (now w : Nat) (net : Request → Response),
    (map ticker = some (PDate.ts w) →
      process_ticker_range_data ticker config map now net
        = Except.ok ⟨⟨config.url, ticker, w + 1, now, 1, 10000⟩,
            handleResponse ticker config
              (net ⟨config.url, ticker, w + 1, now, 1, 10000⟩), []⟩) ∧
    (map ticker = none →
      process_ticker_range_data ticker config map now net
        = Except.ok ⟨⟨config.url, ticker, config.start_date_default, now, 1, 10000⟩,
            handleResponse ticker config
              (net ⟨config.url, ticker, config.start_date_default, now, 1, 10000⟩),
            []⟩) := by
  intro ticker config map now w net
  constructor
  · intro h
    exact process_eq_of_buildRequest ticker config map now net _
      (buildRequest_eq_of_ts ticker config map now w h)
  · intro h
    exact process_eq_of_buildRequest ticker config map now net _
      (buildRequest_eq_of_none ticker config map now h)

/-- C5 amended witness: both branches at concrete inputs (`AAA` has watermark
100, `BBB` none). -/
theorem C5_amended_request_is_w_plus_one_to_now_witness :
    process_ticker_range_data "AAA" sampleConfig sampleMap 7 sampleNet
      = Except.ok ⟨⟨"u", "AAA", 101, 7, 1, 10000⟩,
          handleResponse "AAA" sampleConfig
            (sampleNet ⟨"u", "AAA", 101, 7, 1, 10000⟩), []⟩ ∧
    process_ticker_range_data "BBB" sampleConfig sampleMap 7 sampleNet
      = Except.ok ⟨⟨"u", "BBB", 0, 7, 1, 10000⟩,
          handleResponse "BBB" sampleConfig
            (sampleNet ⟨"u", "BBB", 0, 7, 1, 10000⟩), []⟩ :=
  ⟨(C5_amended_request_is_w_plus_one_to_now "AAA" sampleConfig sampleMap
      7 100 sampleNet).1 (by decide),
   (C5_amended_request_is_w_plus_one_to_now "BBB" sampleConfig sampleMap
      7 0 sampleNet).2 (by decide)⟩

/-- C6: if the master artifact is missing (`none`), unreadable (`corrupt`),
or structurally corrupted (no date column, or no ticker column so that the
`groupby` raises into the bare `except:`), the watermark map comes back
empty, no rows are carried forward, nothing is raised (the function is total),
and every entity is subsequently fetched from the configured default start
date. -/
theorem C6_corrupted_master_starts_fresh :
    ∀ (m : Option RawMaster), masterCorrupted m →
    load_master m = ([], fun _ => none) ∧
    (∀ (ticker : String) (config : FetchConfig) (now : Nat)
       (net : Request → Response),
      process_ticker_range_data ticker config (load_master m).2 now net
        = Except.ok ⟨⟨config.url, ticker, config.start_date_default, now, 1, 10000⟩,
            handleResponse ticker config
              (net ⟨config.url, ticker, config.start_date_default, now, 1, 10000⟩),
            []⟩) := by
  intro m hm
  have hlm : load_master m = ([], fun _ => none) := by
    cases m with
    | none => rfl
    | some rm =>
      cases rm with
      | corrupt => rfl
      | table hasDate hasTicker rows =>
        rcases hm with h | h
        · rw [h]
          rfl
        · rw [h]
          cases hasDate <;> rfl
  refine ⟨hlm, ?_⟩
  intro ticker config now net
  rw [hlm]
  exact process_eq_of_buildRequest ticker config (fun _ => none) now net _
    (buildRequest_eq_of_none ticker config (fun _ => none) now rfl)

/-- C6 witness: a readable master frame lacking the date column. -/
theorem C6_corrupted_master_starts_fresh_witness :
    load_master (some (RawMaster.table false true [⟨"AAA", some 3, 0⟩]))
      = ([], fun _ => none) :=
  (C6_corrupted_master_starts_fresh
    (some (RawMaster.table false true [⟨"AAA", some 3, 0⟩])) (Or.inl rfl)).1

/-- C7 (counterexample): the claim says a per-entity fetch failure "is
logged".  Evaluating the fetch of `BBB` against a network that raises shows
the call returns an empty row list AND an empty log: the bare
`except: return []` at lines 255-256 prints nothing, so the failure is
silent, not logged. -/
theorem C7_fetch_failure_is_silent :
    process_ticker_range_data "BBB" sampleConfig sampleMap 5
        (fun _ => Response.failure)
      = Except.ok ⟨⟨"u", "BBB", 0, 5, 1, 10000⟩, [], []⟩ :=
  rfl

/-- C7 (amended): a per-entity fetch failure is non-fatal and SILENT.  For an
entity `b` with watermark `w` whose response is bad: (1) the call returns the
request `(w, now]`, no rows, and no log output; (2) merging chunks that carry
no `b` rows leaves `b`'s recomputed watermark at `w`; (3) the next run
therefore issues the identical `StartDate = w + 1` request; (4) any other
entity's result is unchanged by how the network answers `b`'s requests. -/
theorem C7_amended_failure_nonfatal_silent_retry :
    ∀ (config : FetchConfig) (master : List Row) (chunks : List (List Row))
      (b : String) (w : Nat),
    last_update_map master b = some (PDate.ts w) →
    (∀ r ∈ chunks.flatten, r.ticker ≠ b) →
    (∀ (now : Nat) (net : Request → Response),
      respBad config (net ⟨config.url, b, w + 1, now, 1, 10000⟩) = true →
      process_ticker_range_data b config (last_update_map master) now net
        = Except.ok ⟨⟨config.url, b, w + 1, now, 1, 10000⟩, [], []⟩) ∧
    last_update_map (update_merge master chunks) b = some (PDate.ts w) ∧
    (∀ (now2 : Nat) (net2 : Request → Response),
      process_ticker_range_data b config
          (last_update_map (update_merge master chunks)) now2 net2
        = Except.ok ⟨⟨config.url, b, w + 1, now2, 1, 10000⟩,
            handleResponse b config
              (net2 ⟨config.url, b, w + 1, now2, 1, 10000⟩), []⟩) ∧
    (∀ (t : String) (now : Nat) (net net2 : Request → Response), t ≠ b →
      (∀ req : Request, req.symbol ≠ b → net req = net2 req) →
      process_ticker_range_data t config (last_update_map master) now net
        = process_ticker_range_data t config (last_update_map master) now net2) := by
  intro config master chunks b w hw hchunks
  have hmerged : last_update_map (update_merge master chunks) b
      = some (PDate.ts w) := by
    rw [last_update_map_merge_no_chunk_rows master chunks b hchunks]
    exact hw
  refine ⟨?_, hmerged, ?_, ?_⟩
  · intro now net hbad
    rw [process_eq_of_buildRequest b config (last_update_map master) now net _
      (buildRequest_eq_of_ts b config (last_update_map master) now w hw)]
    rw [handleResponse_eq_nil b config _ (Or.inl hbad)]
  · intro now2 net2
    exact process_eq_of_buildRequest b config _ now2 net2 _
      (buildRequest_eq_of_ts b config _ now2 w hmerged)
  · intro t now net net2 hneq hagree
    unfold process_ticker_range_data
    cases hb : buildRequest t config (last_update_map master) now with
    | error e => rfl
    | ok req =>
      have hsym : req.symbol = t :=
        buildRequest_symbol t config (last_update_map master) now req hb
      show (Except.ok ⟨req, handleResponse t config (net req), []⟩ :
              Except Unit FetchResult)
        = Except.ok ⟨req, handleResponse t config (net2 req), []⟩
      rw [hagree req (by rw [hsym]; exact hneq)]

/-- C7 amended witness: concrete master with `BBB` at watermark 3, one chunk
holding only `AAA` rows, a network that raises on everything. -/
theorem C7_amended_failure_nonfatal_silent_retry_witness :
    process_ticker_range_data "BBB" sampleConfig
        (last_update_map [⟨"BBB", some 3, 0⟩]) 5 (fun _ => Response.failure)
      = Except.ok ⟨⟨"u", "BBB", 4, 5, 1, 10000⟩, [], []⟩ ∧
    last_update_map (update_merge [⟨"BBB", some 3, 0⟩] [[⟨"AAA", some 9, 1⟩]])
        "BBB" = some (PDate.ts 3) := by
  have h := C7_amended_failure_nonfatal_silent_retry sampleConfig
    [⟨"BBB", some 3, 0⟩] [[⟨"AAA", some 9, 1⟩]] "BBB" 3 (by decide) (by decide)
  exact ⟨h.1 5 (fun _ => Response.failure) rfl, h.2.1⟩

/-- C8: the resume scan removes from the work queue exactly the tickers that
occur in some existing chunk file: a ticker is fetched in the resumed run iff
it is in the catalog and in no chunk — chunked tickers are never re-fetched,
unchunked ones all remain queued (the fixed-size batching covers the filtered
queue exactly). -/
theorem C8_resume_skips_exactly_chunked_tickers :
    ∀ (tickers : List String) (chunkTickers : List (List String)) (t : String),
    t ∈ fetched_tickers tickers chunkTickers
      ↔ (t ∈ tickers ∧ ∀ c ∈ chunkTickers, t ∉ c) := by
  intro tickers chunkTickers t
  unfold fetched_tickers
  rw [flatten_batches _ 500 (by decide)]
  simp only [tickers_to_process, processed_tickers, List.mem_filter,
    Bool.not_eq_true', List.contains_eq_any_beq]
  constructor
  · rintro ⟨ht, hno⟩
    refine ⟨ht, ?_⟩
    intro c hc htc
    have : (chunkTickers.flatten.any fun x => t == x) = true := by
      rw [List.any_eq_true]
      exact ⟨t, List.mem_flatten.mpr ⟨c, hc, htc⟩, by simp⟩
    rw [this] at hno
    cases hno
  · rintro ⟨ht, hno⟩
    refine ⟨ht, ?_⟩
    rw [List.any_eq_false]
    intro x hx
    rcases List.mem_flatten.mp hx with ⟨c, hc, hxc⟩
    intro hbeq
    have : t = x := by simpa using hbeq
    subst this
    exact hno c hc hxc

/-- Helper: a decimal digit character is a digit. -/
theorem digitChar_isDigit (k : Nat) (h : k ≤ 9) : (digitChar k).isDigit = true := by
  interval_cases k <;> decide

/-- Helper: `parse2` inverts a two-digit rendering. -/
theorem parse2_digitChar (a b : Nat) (ha : a ≤ 9) (hb : b ≤ 9) :
    parse2 (digitChar a) (digitChar b) = a * 10 + b := by
  interval_cases a <;> interval_cases b <;> decide

theorem days_in_month_le_31 (y m : Nat) : days_in_month y m ≤ 31 := by
  unfold days_in_month
  split <;> split <;> omega

/-- C9 (counterexample): the claim says the `DDMMYY` version suffix makes
lexical filename order equal chronological order.  For January 2nd versus
February 1st of 2024 the chronologically earlier artifact name sorts lexically
AFTER the later one: `m_020124.parquet > m_010224.parquet`, because the
day-first layout puts the least significant component first. -/
theorem C9_lexical_order_is_not_chronological :
    dateLt ⟨2024, 1, 2⟩ ⟨2024, 2, 1⟩ = true ∧
    ¬ (new_filename "m" ⟨2024, 1, 2⟩ < new_filename "m" ⟨2024, 2, 1⟩) ∧
    new_filename "m" ⟨2024, 2, 1⟩ < new_filename "m" ⟨2024, 1, 2⟩ := by
  refine ⟨by decide, ?_, ?_⟩
  · rw [String.lt_iff_toList_lt]
    decide
  · rw [String.lt_iff_toList_lt]
    decide

/-- C9 (amended): the version suffix does encode the maximum data date in a
fixed-width `DDMMYY` format, but lexical order does not track chronology;
instead the code recovers the date by parsing the suffix
(`parse_filename_date` / `extract_date_from_name`) and ordering by the parsed
value.  Parsing inverts encoding: for any prefix and any valid calendar date
with a year in 2000-2068 (the `%y` pivot range the pipeline lives in),
parsing the generated filename returns exactly the encoded date. -/
theorem C9_amended_parse_inverts_encode :
    ∀ (p : String) (d : Date), 1 ≤ d.month → d.month ≤ 12 → 1 ≤ d.day →
    d.day ≤ days_in_month d.year d.month → 2000 ≤ d.year → d.year ≤ 2068 →
    parse_filename_date (new_filename p d) = some d := by
  intro p d h1 h2 h3 h4 h5 h6
  obtain ⟨y, m, dd⟩ := d
  simp only at h1 h2 h3 h4 h5 h6
  obtain ⟨pl⟩ := p
  have hu : "_".data = ['_'] := rfl
  have hpq : ".parquet".data = ['.', 'p', 'a', 'r', 'q', 'u', 'e', 't'] := rfl
  have hdd : dd ≤ 31 := le_trans h4 (days_in_month_le_31 y m)
  have hdata : (new_filename (String.mk pl) ⟨y, m, dd⟩).data
      = pl ++ '_' :: digitChar (dd / 10) :: digitChar (dd % 10) ::
        digitChar (m / 10) :: digitChar (m % 10) ::
        digitChar (y % 100 / 10) :: digitChar (y % 100 % 10) ::
        '.' :: 'p' :: 'a' :: 'r' :: 'q' :: 'u' :: 'e' :: 't' :: [] := by
    simp [new_filename, strftime_ddmmyy, pad2, String.data_append, hu, hpq]
  unfold parse_filename_date
  rw [hdata]
  have hrev : (pl ++ '_' :: digitChar (dd / 10) :: digitChar (dd % 10) ::
        digitChar (m / 10) :: digitChar (m % 10) ::
        digitChar (y % 100 / 10) :: digitChar (y % 100 % 10) ::
        '.' :: 'p' :: 'a' :: 'r' :: 'q' :: 'u' :: 'e' :: 't' :: []).reverse
      = 't' :: 'e' :: 'u' :: 'q' :: 'r' :: 'a' :: 'p' :: '.' ::
        digitChar (y % 100 % 10) :: digitChar (y % 100 / 10) ::
        digitChar (m % 10) :: digitChar (m / 10) ::
        digitChar (dd % 10) :: digitChar (dd / 10) :: '_' :: pl.reverse := by
    simp
  rw [hrev]
  simp only [parseDatedRev]
  rw [if_pos]
  · rw [parse2_digitChar _ _ (by omega) (by omega),
      parse2_digitChar _ _ (by omega) (by omega),
      parse2_digitChar _ _ (by omega) (by omega)]
    have hd2 : dd / 10 * 10 + dd % 10 = dd := by omega
    have hm2 : m / 10 * 10 + m % 10 = m := by omega
    have hy2 : y % 100 / 10 * 10 + y % 100 % 10 = y % 100 := by omega
    rw [hd2, hm2, hy2]
    have hyy : strptime_y (y % 100) = y := by
      unfold strptime_y
      have : y % 100 ≤ 68 := by omega
      rw [if_pos this]
      omega
    unfold strptime_ddmmyy
    simp only [hyy]
    rw [if_pos]
    simp [h1, h2, h3, h4]
  · simp [digitChar_isDigit _ (by omega : dd / 10 ≤ 9),
      digitChar_isDigit _ (by omega : dd % 10 ≤ 9),
      digitChar_isDigit _ (by omega : m / 10 ≤ 9),
      digitChar_isDigit _ (by omega : m % 10 ≤ 9),
      digitChar_isDigit _ (by omega : y % 100 / 10 ≤ 9),
      digitChar_isDigit _ (by omega : y % 100 % 10 ≤ 9)]

/-- C9 amended witness: round trip at a leap-day date under a real prefix. -/
theorem C9_amended_parse_inverts_encode_witness :
    parse_filename_date (new_filename "all_proprietary_trading" ⟨2024, 2, 29⟩)
      = some ⟨2024, 2, 29⟩ :=
  C9_amended_parse_inverts_encode "all_proprietary_trading" ⟨2024, 2, 29⟩
    (by decide) (by decide) (by decide) (by decide) (by decide) (by decide)

/-- C10 (counterexample): the claim says the per-entity fetch is total for
every watermark map.  A map whose entry for the ticker is pandas `NaT`
(which `groupby(...).max()` produces when every master date of that ticker is
missing) makes the start-date computation raise before the `try:` block:
`(NaT + timedelta(days=1)).strftime(...)` is a `ValueError`. -/
theorem C10_NaT_watermark_raises :
    process_ticker_range_data "AAA" sampleConfig natMap 5 sampleNet
      = Except.error () :=
  rfl

/-- C10 (amended): for every map whose entry at the ticker is not `NaT`, the
fetch is total: it returns the issued request, a row list, and no log output;
and a bad response (raised request, non-200 status, malformed JSON, broken
key chain, non-list cursor, non-dict row) produces exactly the same value as
a genuinely empty data list — `[]` — so the coordinator cannot tell a failure
from no-new-data. -/
theorem C10_amended_total_and_failure_eq_empty :
    ∀ (ticker : String) (config : FetchConfig) (map : String → Option PDate)
      (now : Nat) (net : Request → Response),
    map ticker ≠ some PDate.NaT →
    process_ticker_range_data ticker config map now net
      = Except.ok ⟨issuedRequest ticker config map now,
          handleResponse ticker config (net (issuedRequest ticker config map now)),
          []⟩ ∧
    ((respBad config (net (issuedRequest ticker config map now)) = true ∨
      respEmptyList config (net (issuedRequest ticker config map now)) = true) →
      handleResponse ticker config (net (issuedRequest ticker config map now))
        = []) := by
  intro ticker config map now net hnat
  have hreq : buildRequest ticker config map now
      = Except.ok (issuedRequest ticker config map now) := by
    cases hmt : map ticker with
    | none =>
      rw [buildRequest_eq_of_none ticker config map now hmt]
      unfold issuedRequest
      rw [hmt]
    | some pd =>
      cases pd with
      | ts w =>
        rw [buildRequest_eq_of_ts ticker config map now w hmt]
        unfold issuedRequest
        rw [hmt]
      | NaT => exact absurd hmt hnat
  refine ⟨process_eq_of_buildRequest ticker config map now net _ hreq, ?_⟩
  intro hbad
  exact handleResponse_eq_nil ticker config _ hbad

/-- C10 amended witness: at a concrete raising network the fetch returns the
empty list with no logs. -/
theorem C10_amended_total_and_failure_eq_empty_witness :
    process_ticker_range_data "AAA" sampleConfig sampleMap 5
        (fun _ => Response.failure)
      = Except.ok ⟨⟨"u", "AAA", 101, 5, 1, 10000⟩, [], []⟩ ∧
    handleResponse "AAA" sampleConfig Response.failure = [] := by
  have h := C10_amended_total_and_failure_eq_empty "AAA" sampleConfig sampleMap
    5 (fun _ => Response.failure) (by decide)
  exact ⟨h.1, h.2 (Or.inl rfl)⟩
